import Mathlib

/-!
Verification of the proxy-rotation and driver-cache subsystem of
`selenium_forge` (files `proxy/rotator.py` and `drivers/manager.py`),
as a shallow embedding in Lean 4.

Conventions of the embedding:
* Python `defaultdict(int)` counters become total functions `String → Nat`
  (lookup of an unknown key is `0`, exactly the defaultdict behaviour).
* `random.choice(xs)` is modelled by an oracle `Nat` argument selecting
  `xs[oracle % len(xs)]`; every theorem quantifies over the oracle, so it
  covers every possible behaviour of the random generator.
* Raised exceptions become `Except` errors.
-/

namespace SeleniumForge

/-- `core.constants.ProxyType` (HTTP / HTTPS / SOCKS4 / SOCKS5). -/
inductive ProxyType where
  | http
  | https
  | socks4
  | socks5
  deriving DecidableEq, Repr

/-- `core.types.ProxyConfig`: one proxy endpoint.  Fields not read by the
rotator (`proxy_type`, credentials, `no_proxy`) are kept for fidelity. -/
structure ProxyConfig where
  host : String
  port : Nat
  proxy_type : ProxyType := ProxyType.http
  username : Option String := none
  password : Option String := none
  no_proxy : Option (List String) := none
  deriving DecidableEq, Repr

instance : Inhabited ProxyConfig := ⟨{ host := "", port := 0 }⟩

/-- `core.types.ProxyRotationConfig` (the fields the rotator reads;
`max_failures_per_proxy` is a non-negative count, as in every use in the
repository — the default is 3). -/
structure ProxyRotationConfig where
  proxies : List ProxyConfig
  rotation_strategy : String := "round-robin"
  max_failures_per_proxy : Nat := 3
  health_check_enabled : Bool := true
  deriving Repr

/-- The mutable state of one `ProxyRotator` instance:
`config`, `current_index`, `failure_counts`, `usage_counts`. -/
structure RotatorState where
  config : ProxyRotationConfig
  current_index : Nat := 0
  failure_counts : String → Nat := fun _ => 0
  usage_counts : String → Nat := fun _ => 0

/-- `ProxyRotator._get_proxy_key`: `f"{proxy.host}:{proxy.port}"`. -/
def getProxyKey (p : ProxyConfig) : String :=
  p.host ++ ":" ++ toString p.port

/-- Increment one key of a counter map (`counts[key] += 1`). -/
def bump (f : String → Nat) (k : String) : String → Nat :=
  fun x => if x = k then f x + 1 else f x

/-- The filter step shared verbatim by the three selection methods:
`[proxy for proxy in self.config.proxies
   if self.failure_counts[key(proxy)] < self.config.max_failures_per_proxy]`. -/
def filteredCandidates (s : RotatorState) : List ProxyConfig :=
  s.config.proxies.filter fun p =>
    s.failure_counts (getProxyKey p) < s.config.max_failures_per_proxy

/-- The candidate list actually selected from: the filtered list, or the
full pool after the degenerate-case reset (`if not available_proxies:
self.failure_counts.clear(); available_proxies = self.config.proxies`). -/
def selectionPool (s : RotatorState) : List ProxyConfig :=
  if (filteredCandidates s).isEmpty then s.config.proxies else filteredCandidates s

/-- The failure counters after the shared filter-or-reset step:
cleared when the filtered list was empty, untouched otherwise. -/
def postFailureCounts (s : RotatorState) : String → Nat :=
  if (filteredCandidates s).isEmpty then (fun _ => 0) else s.failure_counts

/-- `ProxyRotator._get_round_robin_proxy`.  The `getD _ default` index is
in range whenever the pool is non-empty (the only way the method is
reached, behind `get_next_proxy`'s empty-pool check). -/
def getRoundRobinProxy (s : RotatorState) : ProxyConfig × RotatorState :=
  let avail := selectionPool s
  let proxy := avail.getD (s.current_index % avail.length) default
  (proxy,
   { s with
       current_index := s.current_index + 1
       failure_counts := postFailureCounts s
       usage_counts := bump s.usage_counts (getProxyKey proxy) })

/-- `ProxyRotator._get_random_proxy`; `random.choice` is modelled by the
`oracle` argument (see the header comment). -/
def getRandomProxy (s : RotatorState) (oracle : Nat) : ProxyConfig × RotatorState :=
  let avail := selectionPool s
  let proxy := avail.getD (oracle % avail.length) default
  (proxy,
   { s with
       failure_counts := postFailureCounts s
       usage_counts := bump s.usage_counts (getProxyKey proxy) })

/-- Python's `min(l, key=f)`: left fold that keeps the incumbent on ties,
so the first element attaining the minimum wins. -/
def pyMinBy (f : ProxyConfig → Nat) : ProxyConfig → List ProxyConfig → ProxyConfig
  | a, [] => a
  | a, b :: l => pyMinBy f (if f b < f a then b else a) l

/-- `ProxyRotator._get_least_used_proxy`:
`min(available_proxies, key=lambda p: self.usage_counts[key(p)])`. -/
def getLeastUsedProxy (s : RotatorState) : ProxyConfig × RotatorState :=
  let avail := selectionPool s
  let proxy :=
    match avail with
    | [] => default
    | a :: rest => pyMinBy (fun p => s.usage_counts (getProxyKey p)) a rest
  (proxy,
   { s with
       failure_counts := postFailureCounts s
       usage_counts := bump s.usage_counts (getProxyKey proxy) })

/-- ASCII lowercasing of one character. -/
def lowerChar (c : Char) : Char :=
  if 65 ≤ c.toNat ∧ c.toNat ≤ 90 then Char.ofNat (c.toNat + 32) else c

/-- Python `str.lower()` as it acts on the ASCII rotation-strategy names
(defined by structural recursion over the characters so that proofs can
evaluate it; the library `String.toLower` is extensionally the same on
ASCII but is not kernel-reducible). -/
def lowerString (s : String) : String :=
  String.mk (s.data.map lowerChar)

/-- The `UserError` raised by the rotator (message, suggestion). -/
inductive RotatorError where
  | userError (message suggestion : String)
  deriving DecidableEq, Repr

/-- `ProxyRotator.get_next_proxy`: empty-pool check, then dispatch on
`self.config.rotation_strategy.lower()`, defaulting to round-robin. -/
def get_next_proxy (s : RotatorState) (oracle : Nat) :
    Except RotatorError (ProxyConfig × RotatorState) :=
  if s.config.proxies.isEmpty then
    .error (.userError "No proxies available in rotation pool"
      "Add proxies to the rotation configuration")
  else
    let strategy := lowerString s.config.rotation_strategy
    if strategy = "round-robin" then .ok (getRoundRobinProxy s)
    else if strategy = "random" then .ok (getRandomProxy s oracle)
    else if strategy = "least-used" then .ok (getLeastUsedProxy s)
    else .ok (getRoundRobinProxy s)

/-- `ProxyRotator.report_failure`: `self.failure_counts[proxy_key] += 1`. -/
def report_failure (s : RotatorState) (p : ProxyConfig) : RotatorState :=
  { s with failure_counts := bump s.failure_counts (getProxyKey p) }

/-- `ProxyRotator.report_success`: `self.failure_counts[proxy_key] = 0`. -/
def report_success (s : RotatorState) (p : ProxyConfig) : RotatorState :=
  { s with
      failure_counts := fun k => if k = getProxyKey p then 0 else s.failure_counts k }

/-- `ProxyRotator.get_statistics`: per-endpoint `(usage_count, failure_count)`
snapshot; reads the state, never writes it. -/
def get_statistics (s : RotatorState) : List (String × Nat × Nat) :=
  s.config.proxies.map fun p =>
    (getProxyKey p, s.usage_counts (getProxyKey p), s.failure_counts (getProxyKey p))

/-- `ProxyRotator.reset_statistics`: clears both counter maps and resets
the cursor. -/
def reset_statistics (s : RotatorState) : RotatorState :=
  { s with
      failure_counts := fun _ => 0
      usage_counts := fun _ => 0
      current_index := 0 }

/-- One call of the rotator's mutating public interface. -/
inductive RotOp where
  | next (oracle : Nat)
  | reportFailure (p : ProxyConfig)
  | reportSuccess (p : ProxyConfig)
  deriving DecidableEq, Repr

/-- Apply one operation; `next` yields the chosen proxy (no proxy when the
call raised). -/
def applyOp (s : RotatorState) (op : RotOp) : RotatorState × Option ProxyConfig :=
  match op with
  | .next o =>
    match get_next_proxy s o with
    | .ok (p, s') => (s', some p)
    | .error _ => (s, none)
  | .reportFailure p => (report_failure s p, none)
  | .reportSuccess p => (report_success s p, none)

/-- Run a sequence of operations, collecting the proxies handed out. -/
def runOps (s : RotatorState) : List RotOp → RotatorState × List ProxyConfig
  | [] => (s, [])
  | op :: rest =>
    let step := applyOp s op
    let tail := runOps step.1 rest
    (tail.1, step.2.toList ++ tail.2)

end SeleniumForge

namespace SeleniumForge

/-! ### Basic facts about the shared filter-or-reset step -/

theorem selectionPool_subset (s : RotatorState) : selectionPool s ⊆ s.config.proxies := by
  unfold selectionPool
  split
  · exact fun a ha => ha
  · exact List.filter_subset' _

theorem selectionPool_ne_nil (s : RotatorState) (h : s.config.proxies ≠ []) :
    selectionPool s ≠ [] := by
  unfold selectionPool
  split
  · exact h
  · rename_i hne
    exact fun hc => hne (by simp [hc])

theorem getD_mod_mem (l : List ProxyConfig) (i : Nat) (h : l ≠ []) :
    l.getD (i % l.length) default ∈ l := by
  have hlt : i % l.length < l.length := Nat.mod_lt _ (List.length_pos.mpr h)
  rw [List.getD_eq_getElem l default hlt]
  exact List.getElem_mem hlt

/-! ### Python `min(-, key=f)` keeps the first element attaining the minimum -/

theorem pyMinBy_first (f : ProxyConfig → Nat) (l : List ProxyConfig) (a : ProxyConfig) :
    (pyMinBy f a l = a ∧ ∀ b ∈ l, f a ≤ f b) ∨
    (∃ l₁ l₂, l = l₁ ++ pyMinBy f a l :: l₂ ∧ f (pyMinBy f a l) < f a ∧
      (∀ b ∈ l₁, f (pyMinBy f a l) < f b) ∧ (∀ b ∈ l₂, f (pyMinBy f a l) ≤ f b)) := by
  induction l generalizing a with
  | nil => exact Or.inl ⟨rfl, by simp⟩
  | cons b t ih =>
    by_cases hb : f b < f a
    · have heq : pyMinBy f a (b :: t) = pyMinBy f b t := by simp [pyMinBy, hb]
      rw [heq]
      rcases ih b with ⟨h1, h2⟩ | ⟨l₁, l₂, hsplit, hlt, hpre, hpost⟩
      · refine Or.inr ⟨[], t, ?_, ?_, ?_, ?_⟩
        · simp [h1]
        · rw [h1]; exact hb
        · simp
        · rw [h1]; exact h2
      · refine Or.inr ⟨b :: l₁, l₂, ?_, ?_, ?_, hpost⟩
        · rw [List.cons_append, ← hsplit]
        · exact lt_trans hlt hb
        · intro c hc
          rcases List.mem_cons.mp hc with rfl | hc
          · exact hlt
          · exact hpre c hc
    · have ha : f a ≤ f b := le_of_not_lt hb
      have heq : pyMinBy f a (b :: t) = pyMinBy f a t := by simp [pyMinBy, hb]
      rw [heq]
      rcases ih a with ⟨h1, h2⟩ | ⟨l₁, l₂, hsplit, hlt, hpre, hpost⟩
      · refine Or.inl ⟨h1, ?_⟩
        intro c hc
        rcases List.mem_cons.mp hc with rfl | hc
        · exact ha
        · exact h2 c hc
      · refine Or.inr ⟨b :: l₁, l₂, ?_, hlt, ?_, hpost⟩
        · rw [List.cons_append, ← hsplit]
        · intro c hc
          rcases List.mem_cons.mp hc with rfl | hc
          · exact lt_of_lt_of_le hlt ha
          · exact hpre c hc

theorem pyMinBy_mem (f : ProxyConfig → Nat) (a : ProxyConfig) (l : List ProxyConfig) :
    pyMinBy f a l = a ∨ pyMinBy f a l ∈ l := by
  rcases pyMinBy_first f l a with ⟨h1, -⟩ | ⟨l₁, l₂, hsplit, -, -, -⟩
  · exact Or.inl h1
  · refine Or.inr ?_
    set r := pyMinBy f a l with hr
    rw [hsplit]
    exact List.mem_append_right _ (List.mem_cons_self _ _)

theorem pyMinBy_le (f : ProxyConfig → Nat) (a : ProxyConfig) (l : List ProxyConfig) :
    f (pyMinBy f a l) ≤ f a ∧ ∀ b ∈ l, f (pyMinBy f a l) ≤ f b := by
  rcases pyMinBy_first f l a with ⟨h1, h2⟩ | ⟨l₁, l₂, hsplit, hlt, hpre, hpost⟩
  · exact ⟨le_of_eq (congrArg f h1), fun b hb => le_of_eq (congrArg f h1) |>.trans (h2 b hb)⟩
  · refine ⟨le_of_lt hlt, fun b hb => ?_⟩
    rw [hsplit] at hb
    rcases List.mem_append.mp hb with hb | hb
    · exact le_of_lt (hpre b hb)
    · rcases List.mem_cons.mp hb with rfl | hb
      · exact le_rfl
      · exact hpost b hb

/-- The element `_get_least_used_proxy` picks out of a candidate list. -/
def pyMinUsage (s : RotatorState) (l : List ProxyConfig) : ProxyConfig :=
  match l with
  | [] => default
  | a :: rest => pyMinBy (fun p => s.usage_counts (getProxyKey p)) a rest

theorem pyMinUsage_mem (s : RotatorState) (l : List ProxyConfig) (h : l ≠ []) :
    pyMinUsage s l ∈ l := by
  cases l with
  | nil => exact absurd rfl h
  | cons a rest =>
    rcases pyMinBy_mem (fun p => s.usage_counts (getProxyKey p)) a rest with h1 | h1
    · rw [pyMinUsage, h1]; exact List.mem_cons_self _ _
    · exact List.mem_cons_of_mem a h1

/-! ### Projection lemmas for the three selection methods -/

theorem getRoundRobinProxy_fst (s : RotatorState) :
    (getRoundRobinProxy s).1 =
      (selectionPool s).getD (s.current_index % (selectionPool s).length) default := rfl

theorem getRandomProxy_fst (s : RotatorState) (o : Nat) :
    (getRandomProxy s o).1 =
      (selectionPool s).getD (o % (selectionPool s).length) default := rfl

theorem getLeastUsedProxy_fst (s : RotatorState) :
    (getLeastUsedProxy s).1 = pyMinUsage s (selectionPool s) := by
  unfold getLeastUsedProxy pyMinUsage
  cases selectionPool s <;> rfl

theorem getRoundRobinProxy_fst_mem (s : RotatorState) (h : s.config.proxies ≠ []) :
    (getRoundRobinProxy s).1 ∈ selectionPool s := by
  rw [getRoundRobinProxy_fst]
  exact getD_mod_mem _ _ (selectionPool_ne_nil s h)

theorem getRandomProxy_fst_mem (s : RotatorState) (o : Nat) (h : s.config.proxies ≠ []) :
    (getRandomProxy s o).1 ∈ selectionPool s := by
  rw [getRandomProxy_fst]
  exact getD_mod_mem _ _ (selectionPool_ne_nil s h)

theorem getLeastUsedProxy_fst_mem (s : RotatorState) (h : s.config.proxies ≠ []) :
    (getLeastUsedProxy s).1 ∈ selectionPool s := by
  rw [getLeastUsedProxy_fst]
  exact pyMinUsage_mem s _ (selectionPool_ne_nil s h)

/-- With a non-empty pool, `get_next_proxy` dispatches to one of the three
selection methods. -/
theorem get_next_proxy_cases (s : RotatorState) (o : Nat) (h : s.config.proxies ≠ []) :
    get_next_proxy s o = .ok (getRoundRobinProxy s) ∨
    get_next_proxy s o = .ok (getRandomProxy s o) ∨
    get_next_proxy s o = .ok (getLeastUsedProxy s) := by
  have hE : s.config.proxies.isEmpty = false := by
    simp [List.isEmpty_iff, h]
  unfold get_next_proxy
  rw [hE]
  simp only [Bool.false_eq_true, if_false]
  split_ifs <;> simp

/-- Master shape lemma: with a non-empty pool the call succeeds, returns a
member of the candidate pool, and the new state differs only in the cursor,
the (possibly reset) failure counters, and one bumped usage counter. -/
theorem get_next_proxy_ok_spec (s : RotatorState) (o : Nat) (h : s.config.proxies ≠ []) :
    ∃ p s', get_next_proxy s o = .ok (p, s') ∧ p ∈ selectionPool s ∧
      s'.config = s.config ∧ s'.failure_counts = postFailureCounts s ∧
      s'.usage_counts = bump s.usage_counts (getProxyKey p) := by
  rcases get_next_proxy_cases s o h with hc | hc | hc
  · exact ⟨_, _, hc, getRoundRobinProxy_fst_mem s h, rfl, rfl, rfl⟩
  · exact ⟨_, _, hc, getRandomProxy_fst_mem s o h, rfl, rfl, rfl⟩
  · exact ⟨_, _, hc, getLeastUsedProxy_fst_mem s h, rfl, rfl, rfl⟩

/-! ### Sample states used by the witnesses -/

def proxyA : ProxyConfig := { host := "alpha", port := 8080 }
def proxyB : ProxyConfig := { host := "beta", port := 3128 }
def proxyC : ProxyConfig := { host := "gamma", port := 1080 }

def sampleRotator : RotatorState :=
  { config := { proxies := [proxyA, proxyB, proxyC] } }

/-! ### C1 -/

/-- C1: whatever the failure counters hold, `get_next_proxy` on a non-empty
pool returns an element of `config.proxies` (never nothing), and it raises
the `UserError` exactly when the pool is empty. -/
theorem get_next_proxy_pool_membership (s : RotatorState) (oracle : Nat) :
    (s.config.proxies = [] →
      get_next_proxy s oracle = .error (.userError "No proxies available in rotation pool"
        "Add proxies to the rotation configuration")) ∧
    (s.config.proxies ≠ [] →
      ∃ p s', get_next_proxy s oracle = .ok (p, s') ∧ p ∈ s.config.proxies) := by
  constructor
  · intro h
    simp [get_next_proxy, h]
  · intro h
    obtain ⟨p, s', hok, hmem, -, -, -⟩ := get_next_proxy_ok_spec s oracle h
    exact ⟨p, s', hok, selectionPool_subset s hmem⟩

theorem get_next_proxy_pool_membership_witness :
    (sampleRotator.config.proxies ≠ [] ∧
      ∃ p s', get_next_proxy sampleRotator 0 = .ok (p, s') ∧
        p ∈ sampleRotator.config.proxies) :=
  ⟨by decide, (get_next_proxy_pool_membership sampleRotator 0).2 (by decide)⟩

/-! ### C9 -/

/-- C9: a rotation-strategy string that is (case-insensitively) none of
"round-robin", "random", "least-used" is not rejected: `get_next_proxy`
silently behaves exactly as the round-robin strategy. -/
theorem unknown_strategy_defaults_to_round_robin (s : RotatorState) (oracle : Nat)
    (hne : s.config.proxies ≠ [])
    (h1 : lowerString s.config.rotation_strategy ≠ "round-robin")
    (h2 : lowerString s.config.rotation_strategy ≠ "random")
    (h3 : lowerString s.config.rotation_strategy ≠ "least-used") :
    get_next_proxy s oracle = .ok (getRoundRobinProxy s) := by
  have hE : s.config.proxies.isEmpty = false := by
    simp [List.isEmpty_iff, hne]
  unfold get_next_proxy
  rw [hE]
  simp [h1, h2, h3]

def bogusStrategyRotator : RotatorState :=
  { config := { proxies := [proxyA, proxyB], rotation_strategy := "Weighted" } }

theorem unknown_strategy_defaults_to_round_robin_witness :
    (bogusStrategyRotator.config.proxies ≠ [] ∧
      lowerString bogusStrategyRotator.config.rotation_strategy ≠ "round-robin" ∧
      lowerString bogusStrategyRotator.config.rotation_strategy ≠ "random" ∧
      lowerString bogusStrategyRotator.config.rotation_strategy ≠ "least-used") ∧
    get_next_proxy bogusStrategyRotator 0 = .ok (getRoundRobinProxy bogusStrategyRotator) :=
  ⟨⟨by decide, by decide, by decide, by decide⟩,
    unknown_strategy_defaults_to_round_robin bogusStrategyRotator 0
      (by decide) (by decide) (by decide) (by decide)⟩

end SeleniumForge

namespace SeleniumForge

/-! ### C2 -/

theorem filteredCandidates_eq_nil (s : RotatorState)
    (hall : ∀ p ∈ s.config.proxies,
      s.config.max_failures_per_proxy ≤ s.failure_counts (getProxyKey p)) :
    filteredCandidates s = [] := by
  unfold filteredCandidates
  rw [List.filter_eq_nil_iff]
  intro p hp
  simp only [decide_eq_true_eq, not_lt]
  exact hall p hp

def emptyRotator : RotatorState := { config := { proxies := [] } }

/-- C2 counterexample: the empty-pool state satisfies the claim's premise
(every endpoint of the pool is at or over the ceiling, vacuously), yet the
next `get_next_proxy()` call raises instead of returning an endpoint. -/
theorem global_reset_needs_nonempty_pool :
    (∀ p ∈ emptyRotator.config.proxies,
      emptyRotator.config.max_failures_per_proxy ≤
        emptyRotator.failure_counts (getProxyKey p)) ∧
    get_next_proxy emptyRotator 0 =
      .error (.userError "No proxies available in rotation pool"
        "Add proxies to the rotation configuration") :=
  ⟨by simp [emptyRotator], rfl⟩

/-- C2 (amended with a non-empty pool): if every pool endpoint's failure
count is at or over the ceiling, the next `get_next_proxy()` call succeeds
with a pool member and afterwards every failure count is 0. -/
theorem global_reset_succeeds (s : RotatorState) (oracle : Nat)
    (hne : s.config.proxies ≠ [])
    (hall : ∀ p ∈ s.config.proxies,
      s.config.max_failures_per_proxy ≤ s.failure_counts (getProxyKey p)) :
    ∃ p s', get_next_proxy s oracle = .ok (p, s') ∧ p ∈ s.config.proxies ∧
      ∀ k, s'.failure_counts k = 0 := by
  obtain ⟨p, s', hok, hmem, -, hfail, -⟩ := get_next_proxy_ok_spec s oracle hne
  have hnil := filteredCandidates_eq_nil s hall
  refine ⟨p, s', hok, selectionPool_subset s hmem, fun k => ?_⟩
  rw [hfail]
  simp [postFailureCounts, hnil]

def exhaustedRotator : RotatorState :=
  { config := { proxies := [proxyA, proxyB], max_failures_per_proxy := 1 }
    failure_counts := fun _ => 5 }

theorem global_reset_succeeds_witness :
    (exhaustedRotator.config.proxies ≠ [] ∧
      ∀ p ∈ exhaustedRotator.config.proxies,
        exhaustedRotator.config.max_failures_per_proxy ≤
          exhaustedRotator.failure_counts (getProxyKey p)) ∧
    ∃ p s', get_next_proxy exhaustedRotator 0 = .ok (p, s') ∧
      p ∈ exhaustedRotator.config.proxies ∧ ∀ k, s'.failure_counts k = 0 :=
  ⟨⟨by decide, by decide⟩,
    global_reset_succeeds exhaustedRotator 0 (by decide) (by decide)⟩

/-! ### C5 -/

def usedRotator : RotatorState :=
  { config := { proxies := [proxyA] }, usage_counts := fun _ => 1 }

/-- C5 counterexample: `reset_statistics`, part of the rotator's public
interface, drops `proxyA`'s usage count from 1 to 0. -/
theorem reset_statistics_decreases_usage :
    (reset_statistics usedRotator).usage_counts (getProxyKey proxyA) <
      usedRotator.usage_counts (getProxyKey proxyA) := by decide

/-- C5 (amended to exclude `reset_statistics`, which zeroes all counters):
none of the other mutating public operations — `get_next_proxy`,
`report_failure`, `report_success` — ever decreases any usage count
(`get_statistics` reads the state without writing it). -/
theorem usage_count_monotone (s : RotatorState) (op : RotOp) (k : String) :
    s.usage_counts k ≤ (applyOp s op).1.usage_counts k := by
  cases op with
  | next o =>
    by_cases h : s.config.proxies = []
    · simp [applyOp, get_next_proxy, h]
    · obtain ⟨p, s', hok, -, -, -, husage⟩ := get_next_proxy_ok_spec s o h
      simp only [applyOp, hok]
      rw [husage]
      unfold bump
      split_ifs
      · exact Nat.le_succ _
      · exact le_rfl
  | reportFailure p => simp [applyOp, report_failure]
  | reportSuccess p => simp [applyOp, report_success]

end SeleniumForge

namespace SeleniumForge

/-! ### C3: quarantine -/

/-- Every pool endpoint whose key differs from `e`'s is strictly below the
failure ceiling. -/
def OthersBelow (e : ProxyConfig) (s : RotatorState) : Prop :=
  ∀ p ∈ s.config.proxies, getProxyKey p ≠ getProxyKey e →
    s.failure_counts (getProxyKey p) < s.config.max_failures_per_proxy

instance (e : ProxyConfig) (s : RotatorState) : Decidable (OthersBelow e s) := by
  unfold OthersBelow
  exact List.decidableBAll _ _

/-- The quarantine invariant for endpoint `e`: `e` is in a pool of size > 1
containing at least one differently-keyed endpoint, `e`'s failure count is
at or over the ceiling, and every other endpoint is strictly below it. -/
def Quarantined (e : ProxyConfig) (s : RotatorState) : Prop :=
  e ∈ s.config.proxies ∧
  1 < s.config.proxies.length ∧
  (∃ p ∈ s.config.proxies, getProxyKey p ≠ getProxyKey e) ∧
  s.config.max_failures_per_proxy ≤ s.failure_counts (getProxyKey e) ∧
  OthersBelow e s

instance (e : ProxyConfig) (s : RotatorState) : Decidable (Quarantined e s) := by
  unfold Quarantined
  infer_instance

/-- The operation is not a `report_success` on `e`'s identity. -/
def opAvoids (e : ProxyConfig) : RotOp → Prop
  | .reportSuccess q => getProxyKey q ≠ getProxyKey e
  | _ => True

instance (e : ProxyConfig) (op : RotOp) : Decidable (opAvoids e op) := by
  cases op <;> (unfold opAvoids; infer_instance)

/-- The trace restriction in the claim: `report_success(e)` is never
called, and after every step the other endpoints are still strictly below
the ceiling (i.e. they never all reach the ceiling simultaneously, which
would trigger the global reset). -/
def SafeTrace (e : ProxyConfig) : RotatorState → List RotOp → Prop
  | _, [] => True
  | s, op :: rest =>
      opAvoids e op ∧ OthersBelow e (applyOp s op).1 ∧ SafeTrace e (applyOp s op).1 rest

instance SafeTrace.instDecidable (e : ProxyConfig) :
    (s : RotatorState) → (ops : List RotOp) → Decidable (SafeTrace e s ops)
  | _, [] => isTrue trivial
  | s, op :: rest =>
      have : Decidable (SafeTrace e (applyOp s op).1 rest) :=
        SafeTrace.instDecidable e (applyOp s op).1 rest
      instDecidableAnd

theorem mem_filteredCandidates (s : RotatorState) (p : ProxyConfig) :
    p ∈ filteredCandidates s ↔ p ∈ s.config.proxies ∧
      s.failure_counts (getProxyKey p) < s.config.max_failures_per_proxy := by
  unfold filteredCandidates
  simp [List.mem_filter]

theorem bump_le (f : String → Nat) (k' k : String) : f k ≤ bump f k' k := by
  unfold bump
  split_ifs
  · exact Nat.le_succ _
  · exact le_rfl

/-- In a quarantined state the next call succeeds, avoids `e`'s identity,
and leaves the quarantine invariant intact. -/
theorem quarantined_next (e : ProxyConfig) (s : RotatorState) (o : Nat)
    (hq : Quarantined e s) :
    ∃ p s', get_next_proxy s o = .ok (p, s') ∧
      getProxyKey p ≠ getProxyKey e ∧ Quarantined e s' := by
  obtain ⟨he, hlen, hex, hceil, hob⟩ := hq
  have hne : s.config.proxies ≠ [] := List.ne_nil_of_mem he
  have hfc : filteredCandidates s ≠ [] := by
    obtain ⟨q, hqmem, hqk⟩ := hex
    exact List.ne_nil_of_mem ((mem_filteredCandidates s q).mpr ⟨hqmem, hob q hqmem hqk⟩)
  have hfcE : (filteredCandidates s).isEmpty = false := by
    simp [List.isEmpty_iff, hfc]
  have hsel : selectionPool s = filteredCandidates s := by
    unfold selectionPool
    rw [hfcE]
    simp
  have hpost : postFailureCounts s = s.failure_counts := by
    unfold postFailureCounts
    rw [hfcE]
    simp
  obtain ⟨p, s', hok, hmem, hcfg, hfail, -⟩ := get_next_proxy_ok_spec s o hne
  rw [hsel] at hmem
  obtain ⟨hpmem, hplt⟩ := (mem_filteredCandidates s p).mp hmem
  have hpk : getProxyKey p ≠ getProxyKey e := by
    intro heq
    rw [heq] at hplt
    exact absurd hceil (not_le.mpr hplt)
  rw [hpost] at hfail
  refine ⟨p, s', hok, hpk, ?_, ?_, ?_, ?_, ?_⟩
  · rw [hcfg]; exact he
  · rw [hcfg]; exact hlen
  · rw [hcfg]; exact hex
  · rw [hcfg, hfail]; exact hceil
  · unfold OthersBelow
    rw [hcfg, hfail]
    exact hob

/-- Runs restricted by `SafeTrace` never hand out `e`'s identity from a
quarantined state. -/
theorem quarantined_run (e : ProxyConfig) (s : RotatorState) (ops : List RotOp)
    (hq : Quarantined e s) (hs : SafeTrace e s ops) :
    ∀ r ∈ (runOps s ops).2, getProxyKey r ≠ getProxyKey e := by
  induction ops generalizing s with
  | nil => simp [runOps]
  | cons op rest ih =>
    obtain ⟨hav, hob, htail⟩ := hs
    cases op with
    | next o =>
      obtain ⟨p, s', hok, hpk, hq'⟩ := quarantined_next e s o hq
      have hap : applyOp s (.next o) = (s', some p) := by
        simp [applyOp, hok]
      rw [hap] at htail
      intro r hr
      simp only [runOps, hap] at hr
      rcases List.mem_cons.mp hr with rfl | hr
      · exact hpk
      · exact ih s' hq' htail r hr
    | reportFailure q =>
      have hq' : Quarantined e (report_failure s q) := by
        obtain ⟨he, hlen, hex, hceil, -⟩ := hq
        refine ⟨he, hlen, hex, le_trans hceil (bump_le _ _ _), ?_⟩
        simpa [applyOp] using hob
      intro r hr
      simp only [runOps, applyOp, Option.toList, List.nil_append] at hr
      exact ih (report_failure s q) hq' (by simpa [applyOp] using htail) r hr
    | reportSuccess q =>
      have hkq : getProxyKey q ≠ getProxyKey e := hav
      have hq' : Quarantined e (report_success s q) := by
        obtain ⟨he, hlen, hex, hceil, -⟩ := hq
        refine ⟨he, hlen, hex, ?_, ?_⟩
        · show s.config.max_failures_per_proxy ≤
            (if getProxyKey e = getProxyKey q then 0 else s.failure_counts (getProxyKey e))
          rw [if_neg (fun h => hkq h.symm)]
          exact hceil
        · simpa [applyOp] using hob
      intro r hr
      simp only [runOps, applyOp, Option.toList, List.nil_append] at hr
      exact ih (report_success s q) hq' (by simpa [applyOp] using htail) r hr

/-- `report_failure(e)` iterated `n` times. -/
def reportFailures (s : RotatorState) (e : ProxyConfig) : Nat → RotatorState
  | 0 => s
  | n + 1 => report_failure (reportFailures s e n) e

theorem reportFailures_config (s : RotatorState) (e : ProxyConfig) (n : Nat) :
    (reportFailures s e n).config = s.config := by
  induction n with
  | zero => rfl
  | succ n ih => simpa [reportFailures, report_failure] using ih

theorem reportFailures_self (s : RotatorState) (e : ProxyConfig) (n : Nat) :
    (reportFailures s e n).failure_counts (getProxyKey e) =
      s.failure_counts (getProxyKey e) + n := by
  induction n with
  | zero => rfl
  | succ n ih =>
    show bump (reportFailures s e n).failure_counts (getProxyKey e) (getProxyKey e) = _
    simp [bump, ih, Nat.add_assoc]

theorem reportFailures_other (s : RotatorState) (e : ProxyConfig) (n : Nat) (k : String)
    (h : k ≠ getProxyKey e) :
    (reportFailures s e n).failure_counts k = s.failure_counts k := by
  induction n with
  | zero => rfl
  | succ n ih =>
    show bump (reportFailures s e n).failure_counts (getProxyKey e) k = _
    rw [bump, if_neg h, ih]

/-- C3: after `report_failure(e)` has been called exactly
`max_failures_per_proxy` times on an endpoint with a clean count, in a pool
of size > 1 whose other endpoints are strictly below the ceiling, no
`get_next_proxy()` call in any subsequent operation sequence that contains
no `report_success(e)` and keeps the other endpoints strictly below the
ceiling (so the global reset never fires) ever returns `e`'s identity. -/
theorem quarantine_after_max_failures (s₀ : RotatorState) (e : ProxyConfig) (ops : List RotOp)
    (he : e ∈ s₀.config.proxies)
    (hlen : 1 < s₀.config.proxies.length)
    (hex : ∃ p ∈ s₀.config.proxies, getProxyKey p ≠ getProxyKey e)
    (hzero : s₀.failure_counts (getProxyKey e) = 0)
    (hob : ∀ p ∈ s₀.config.proxies, getProxyKey p ≠ getProxyKey e →
      s₀.failure_counts (getProxyKey p) < s₀.config.max_failures_per_proxy)
    (hsafe : SafeTrace e (reportFailures s₀ e s₀.config.max_failures_per_proxy) ops) :
    ∀ r ∈ (runOps (reportFailures s₀ e s₀.config.max_failures_per_proxy) ops).2,
      getProxyKey r ≠ getProxyKey e := by
  have hq : Quarantined e (reportFailures s₀ e s₀.config.max_failures_per_proxy) := by
    refine ⟨?_, ?_, ?_, ?_, ?_⟩
    · rw [reportFailures_config]; exact he
    · rw [reportFailures_config]; exact hlen
    · rw [reportFailures_config]; exact hex
    · rw [reportFailures_config, reportFailures_self, hzero]
      exact Nat.le_add_left _ _
    · intro p hp hpk
      rw [reportFailures_config] at hp ⊢
      rw [reportFailures_other s₀ e _ _ hpk]
      exact hob p hp hpk
  exact quarantined_run e _ ops hq hsafe

def quarantineBase : RotatorState :=
  { config := { proxies := [proxyA, proxyB], max_failures_per_proxy := 2 } }

def quarantineOps : List RotOp :=
  [RotOp.next 0, RotOp.reportFailure proxyB, RotOp.next 3,
   RotOp.reportSuccess proxyB, RotOp.next 7]

theorem quarantine_after_max_failures_witness :
    (proxyA ∈ quarantineBase.config.proxies ∧
      1 < quarantineBase.config.proxies.length ∧
      (∃ p ∈ quarantineBase.config.proxies, getProxyKey p ≠ getProxyKey proxyA) ∧
      quarantineBase.failure_counts (getProxyKey proxyA) = 0 ∧
      (∀ p ∈ quarantineBase.config.proxies, getProxyKey p ≠ getProxyKey proxyA →
        quarantineBase.failure_counts (getProxyKey p) <
          quarantineBase.config.max_failures_per_proxy) ∧
      SafeTrace proxyA
        (reportFailures quarantineBase proxyA quarantineBase.config.max_failures_per_proxy)
        quarantineOps) ∧
    ∀ r ∈ (runOps
        (reportFailures quarantineBase proxyA quarantineBase.config.max_failures_per_proxy)
        quarantineOps).2,
      getProxyKey r ≠ getProxyKey proxyA :=
  ⟨⟨by decide, by decide, by decide, by decide, by decide, by decide⟩,
    quarantine_after_max_failures quarantineBase proxyA quarantineOps
      (by decide) (by decide) (by decide) (by decide) (by decide) (by decide)⟩

end SeleniumForge

namespace SeleniumForge

/-! ### C4: round-robin fairness -/

theorem selectionPool_allzero (s : RotatorState)
    (hz : ∀ p ∈ s.config.proxies, s.failure_counts (getProxyKey p) = 0) :
    selectionPool s = s.config.proxies := by
  by_cases hmax : 0 < s.config.max_failures_per_proxy
  · have hfc : filteredCandidates s = s.config.proxies := by
      unfold filteredCandidates
      rw [List.filter_eq_self]
      intro p hp
      simp only [decide_eq_true_eq]
      rw [hz p hp]
      exact hmax
    unfold selectionPool
    rw [hfc, ite_self]
  · have hfc : filteredCandidates s = [] := by
      unfold filteredCandidates
      rw [List.filter_eq_nil_iff]
      intro p hp
      simp only [decide_eq_true_eq, not_lt]
      omega
    unfold selectionPool
    rw [hfc]
    rfl

theorem postFailureCounts_allzero (s : RotatorState)
    (hz : ∀ p ∈ s.config.proxies, s.failure_counts (getProxyKey p) = 0) :
    ∀ p ∈ s.config.proxies, postFailureCounts s (getProxyKey p) = 0 := by
  intro p hp
  unfold postFailureCounts
  split
  · rfl
  · exact hz p hp

/-- One failure-free round-robin call: hands out the pool element at the
cursor modulo the pool size, advances the cursor, keeps the pool and the
all-zero failure counters. -/
theorem round_robin_step (s : RotatorState) (o : Nat)
    (hstrat : lowerString s.config.rotation_strategy = "round-robin")
    (hne : s.config.proxies ≠ [])
    (hz : ∀ p ∈ s.config.proxies, s.failure_counts (getProxyKey p) = 0) :
    ∃ s', get_next_proxy s o =
        .ok (s.config.proxies.getD (s.current_index % s.config.proxies.length) default, s') ∧
      s'.config = s.config ∧ s'.current_index = s.current_index + 1 ∧
      ∀ p ∈ s'.config.proxies, s'.failure_counts (getProxyKey p) = 0 := by
  have hE : s.config.proxies.isEmpty = false := by
    simp [List.isEmpty_iff, hne]
  have hok : get_next_proxy s o = .ok (getRoundRobinProxy s) := by
    unfold get_next_proxy
    rw [hE]
    simp [hstrat]
  have hfst : (getRoundRobinProxy s).1 =
      s.config.proxies.getD (s.current_index % s.config.proxies.length) default := by
    rw [getRoundRobinProxy_fst, selectionPool_allzero s hz]
  refine ⟨(getRoundRobinProxy s).2, ?_, rfl, rfl, ?_⟩
  · rw [hok, ← hfst]
  · intro p hp
    exact postFailureCounts_allzero s hz p hp

/-- A failure-free round-robin run hands out the pool elements at the
cursor positions `current_index, current_index + 1, …`, each modulo the
pool size. -/
theorem round_robin_run (s : RotatorState) (os : List Nat)
    (hstrat : lowerString s.config.rotation_strategy = "round-robin")
    (hne : s.config.proxies ≠ [])
    (hz : ∀ p ∈ s.config.proxies, s.failure_counts (getProxyKey p) = 0) :
    (runOps s (os.map RotOp.next)).2 =
      (List.range os.length).map
        (fun k => s.config.proxies.getD
          ((s.current_index + k) % s.config.proxies.length) default) := by
  induction os generalizing s with
  | nil => simp [runOps]
  | cons o os ih =>
    obtain ⟨s', hok, hcfg, hidx, hz'⟩ := round_robin_step s o hstrat hne hz
    have hap : applyOp s (RotOp.next o) =
        (s', some (s.config.proxies.getD
          (s.current_index % s.config.proxies.length) default)) := by
      simp [applyOp, hok]
    have hstrat' : lowerString s'.config.rotation_strategy = "round-robin" := by
      rw [hcfg]; exact hstrat
    have hne' : s'.config.proxies ≠ [] := by
      rw [hcfg]; exact hne
    have htail := ih s' hstrat' hne' hz'
    rw [hcfg, hidx] at htail
    simp only [List.map_cons, runOps, hap, Option.toList, List.cons_append,
      List.nil_append, htail]
    rw [List.length_cons, List.range_succ_eq_map, List.map_cons, List.map_map]
    refine congrArg₂ List.cons ?_ ?_
    · rw [Nat.add_zero]
    · apply List.map_congr_left
      intro k hk
      simp only [Function.comp_apply]
      congr 2
      omega

theorem map_getD_range (l : List ProxyConfig) :
    (List.range l.length).map (fun i => l.getD i default) = l := by
  induction l with
  | nil => rfl
  | cons a t ih =>
    rw [List.length_cons, List.range_succ_eq_map, List.map_cons, List.map_map]
    exact congrArg₂ List.cons rfl ih

theorem mod_shift_nodup (idx n : Nat) :
    ((List.range n).map (fun k => (idx + k) % n)).Nodup := by
  apply List.Nodup.map_on ?_ (List.nodup_range _)
  intro a ha b hb hab
  have ha' : a < n := List.mem_range.mp ha
  have hb' : b < n := List.mem_range.mp hb
  have hmod : a ≡ b [MOD n] := Nat.ModEq.add_left_cancel' idx hab
  have := hmod.eq_of_lt_of_lt ha' hb'
  exact this

/-- C4: with strategy round-robin, `N` distinct endpoints and no failure
ever reported (all failure counts zero), any `N` consecutive
`get_next_proxy()` calls return each endpoint exactly once (the handed-out
list is a permutation of the pool). -/
theorem round_robin_fairness (s : RotatorState) (os : List Nat)
    (hstrat : lowerString s.config.rotation_strategy = "round-robin")
    (hnodup : s.config.proxies.Nodup)
    (hz : ∀ p ∈ s.config.proxies, s.failure_counts (getProxyKey p) = 0)
    (hne : s.config.proxies ≠ [])
    (hN : os.length = s.config.proxies.length) :
    (runOps s (os.map RotOp.next)).2.Perm s.config.proxies := by
  rw [round_robin_run s os hstrat hne hz, hN]
  have hsplit : (List.range s.config.proxies.length).map
      (fun k => s.config.proxies.getD
        ((s.current_index + k) % s.config.proxies.length) default) =
      ((List.range s.config.proxies.length).map
        (fun k => (s.current_index + k) % s.config.proxies.length)).map
        (fun i => s.config.proxies.getD i default) := by
    rw [List.map_map]
    rfl
  rw [hsplit]
  have hpos : 0 < s.config.proxies.length := List.length_pos.mpr hne
  have hsub : ((List.range s.config.proxies.length).map
      (fun k => (s.current_index + k) % s.config.proxies.length)) ⊆
      List.range s.config.proxies.length := by
    intro i hi
    obtain ⟨k, -, rfl⟩ := List.mem_map.mp hi
    exact List.mem_range.mpr (Nat.mod_lt _ hpos)
  have hlen : (List.range s.config.proxies.length).length ≤
      ((List.range s.config.proxies.length).map
        (fun k => (s.current_index + k) % s.config.proxies.length)).length := by
    simp
  have hperm := (List.subperm_of_subset (mod_shift_nodup s.current_index _) hsub).perm_of_length_le hlen
  have := hperm.map (fun i => s.config.proxies.getD i default)
  rw [map_getD_range] at this
  exact this

def fairRotator : RotatorState :=
  { config := { proxies := [proxyA, proxyB, proxyC] }, current_index := 5 }

theorem round_robin_fairness_witness :
    (lowerString fairRotator.config.rotation_strategy = "round-robin" ∧
      fairRotator.config.proxies.Nodup ∧
      (∀ p ∈ fairRotator.config.proxies,
        fairRotator.failure_counts (getProxyKey p) = 0) ∧
      fairRotator.config.proxies ≠ [] ∧
      ([0, 0, 0] : List Nat).length = fairRotator.config.proxies.length) ∧
    (runOps fairRotator ([0, 0, 0].map RotOp.next)).2.Perm fairRotator.config.proxies :=
  ⟨⟨by decide, by decide, by decide, by decide, by decide⟩,
    round_robin_fairness fairRotator [0, 0, 0]
      (by decide) (by decide) (by decide) (by decide) (by decide)⟩

end SeleniumForge

namespace SeleniumForge

/-! ### C6: least-used selection -/

theorem get_next_proxy_least_used (s : RotatorState) (o : Nat)
    (hne : s.config.proxies ≠ [])
    (hstrat : lowerString s.config.rotation_strategy = "least-used") :
    get_next_proxy s o = .ok (getLeastUsedProxy s) := by
  have hE : s.config.proxies.isEmpty = false := by
    simp [List.isEmpty_iff, hne]
  unfold get_next_proxy
  rw [hE]
  simp [hstrat]

/-- `pyMinUsage` picks the first element attaining the minimal usage count:
every strictly earlier element has a strictly larger usage count, and no
element anywhere has a smaller one. -/
theorem pyMinUsage_first_min (s : RotatorState) (l : List ProxyConfig) (hl : l ≠ []) :
    (∃ l₁ l₂, l = l₁ ++ pyMinUsage s l :: l₂ ∧
      ∀ q ∈ l₁, s.usage_counts (getProxyKey (pyMinUsage s l)) <
        s.usage_counts (getProxyKey q)) ∧
    ∀ q ∈ l, s.usage_counts (getProxyKey (pyMinUsage s l)) ≤
      s.usage_counts (getProxyKey q) := by
  cases l with
  | nil => exact absurd rfl hl
  | cons a rest =>
    simp only [pyMinUsage]
    rcases pyMinBy_first (fun p => s.usage_counts (getProxyKey p)) rest a with
      ⟨h1, h2⟩ | ⟨l₁, l₂, hsplit, hlt, hpre, hpost⟩
    · refine ⟨⟨[], rest, ?_, by simp⟩, ?_⟩
      · rw [h1]
        rfl
      · intro q hq
        rcases List.mem_cons.mp hq with rfl | hq
        · rw [h1]
        · rw [h1]
          exact h2 q hq
    · refine ⟨⟨a :: l₁, l₂, ?_, ?_⟩, ?_⟩
      · rw [List.cons_append, ← hsplit]
      · intro q hq
        rcases List.mem_cons.mp hq with rfl | hq
        · exact hlt
        · exact hpre q hq
      · intro q hq
        rcases List.mem_cons.mp hq with rfl | hq
        · exact le_of_lt hlt
        · rw [hsplit] at hq
          rcases List.mem_append.mp hq with hq | hq
          · exact le_of_lt (hpre q hq)
          · rcases List.mem_cons.mp hq with rfl | hq
            · exact le_rfl
            · exact hpost q hq

/-- C6: with strategy least-used and a non-empty below-ceiling candidate
list, `get_next_proxy` returns the candidate with the smallest usage count,
breaking ties by pool iteration order (every earlier candidate has a
strictly larger count), and bumps exactly that candidate's usage count. -/
theorem least_used_selection (s : RotatorState) (o : Nat)
    (hstrat : lowerString s.config.rotation_strategy = "least-used")
    (hfc : filteredCandidates s ≠ []) :
    ∃ p s', get_next_proxy s o = .ok (p, s') ∧
      (∃ l₁ l₂, filteredCandidates s = l₁ ++ p :: l₂ ∧
        ∀ q ∈ l₁, s.usage_counts (getProxyKey p) < s.usage_counts (getProxyKey q)) ∧
      (∀ q ∈ filteredCandidates s,
        s.usage_counts (getProxyKey p) ≤ s.usage_counts (getProxyKey q)) ∧
      s'.usage_counts = bump s.usage_counts (getProxyKey p) := by
  have hne : s.config.proxies ≠ [] := by
    obtain ⟨q, hq⟩ := List.exists_mem_of_ne_nil _ hfc
    exact List.ne_nil_of_mem (List.filter_subset' _ hq)
  have hfcE : (filteredCandidates s).isEmpty = false := by
    simp [List.isEmpty_iff, hfc]
  have hsel : selectionPool s = filteredCandidates s := by
    unfold selectionPool
    rw [hfcE]
    simp
  have hok := get_next_proxy_least_used s o hne hstrat
  have hfst : (getLeastUsedProxy s).1 = pyMinUsage s (filteredCandidates s) := by
    rw [getLeastUsedProxy_fst, hsel]
  obtain ⟨hfirst, hmin⟩ := pyMinUsage_first_min s (filteredCandidates s) hfc
  refine ⟨(getLeastUsedProxy s).1, (getLeastUsedProxy s).2, by rw [hok], ?_, ?_, rfl⟩
  · rw [hfst]
    exact hfirst
  · rw [hfst]
    exact hmin

def leastUsedRotator : RotatorState :=
  { config := { proxies := [proxyA, proxyB, proxyC], rotation_strategy := "least-used" }
    usage_counts := fun k =>
      if k = getProxyKey proxyA then 3
      else if k = getProxyKey proxyB then 1
      else if k = getProxyKey proxyC then 2
      else 0 }

theorem least_used_selection_witness :
    (lowerString leastUsedRotator.config.rotation_strategy = "least-used" ∧
      filteredCandidates leastUsedRotator ≠ []) ∧
    (∃ p s', get_next_proxy leastUsedRotator 0 = .ok (p, s') ∧
      (∃ l₁ l₂, filteredCandidates leastUsedRotator = l₁ ++ p :: l₂ ∧
        ∀ q ∈ l₁, leastUsedRotator.usage_counts (getProxyKey p) <
          leastUsedRotator.usage_counts (getProxyKey q)) ∧
      (∀ q ∈ filteredCandidates leastUsedRotator,
        leastUsedRotator.usage_counts (getProxyKey p) ≤
          leastUsedRotator.usage_counts (getProxyKey q)) ∧
      s'.usage_counts = bump leastUsedRotator.usage_counts (getProxyKey p)) ∧
    ((getLeastUsedProxy leastUsedRotator).1 = proxyB ∧
      (getLeastUsedProxy leastUsedRotator).2.usage_counts (getProxyKey proxyA) = 3 ∧
      (getLeastUsedProxy leastUsedRotator).2.usage_counts (getProxyKey proxyB) = 2 ∧
      (getLeastUsedProxy leastUsedRotator).2.usage_counts (getProxyKey proxyC) = 2) :=
  ⟨⟨by decide, by decide⟩,
    least_used_selection leastUsedRotator 0 (by decide) (by decide),
    by decide, by decide, by decide, by decide⟩

end SeleniumForge

namespace SeleniumForge

/-! ## DriverManager (`drivers/manager.py`) -/

/-- `core.constants.BrowserType`. -/
inductive BrowserType where
  | chrome
  | firefox
  | edge
  | safari
  | chromium
  deriving DecidableEq, Repr

/-- The enum's string value (`browser.value`), the key into `metadata`. -/
def BrowserType.value : BrowserType → String
  | .chrome => "chrome"
  | .firefox => "firefox"
  | .edge => "edge"
  | .safari => "safari"
  | .chromium => "chromium"

/-- Browsers `_download_driver` can fetch automatically (chrome, firefox,
edge); Safari uses the system driver and the rest raise `UserError`. -/
def BrowserType.downloadable : BrowserType → Bool
  | .chrome => true
  | .firefox => true
  | .edge => true
  | _ => false

/-- One entry of the cache metadata (`metadata.json`).  `last_updated` is
stored as an ISO string; the embedding keeps its parse result: `none` =
field absent or falsy, `some none` = present but `datetime.fromisoformat`
raises, `some (some t)` = parses to the time `t` (in seconds). -/
structure CachedDriverRecord where
  path : String
  version : Option String
  last_updated : Option (Option Int)
  deriving DecidableEq, Repr

/-- `timedelta(days=7)` in seconds. -/
def sevenDays : Int := 7 * 86400

/-- Python dict lookup over the metadata (unique keys in a real dict). -/
def lookupMeta : List (String × CachedDriverRecord) → String → Option CachedDriverRecord
  | [], _ => none
  | kv :: rest, k => if kv.1 = k then some kv.2 else lookupMeta rest k

/-- Python dict assignment `metadata[k] = v`: replace in place, else append. -/
def setMeta : List (String × CachedDriverRecord) → String → CachedDriverRecord →
    List (String × CachedDriverRecord)
  | [], k, v => [(k, v)]
  | kv :: rest, k, v => if kv.1 = k then (k, v) :: rest else kv :: setMeta rest k v

/-- Python dict deletion `del metadata[k]`. -/
def delMeta : List (String × CachedDriverRecord) → String →
    List (String × CachedDriverRecord)
  | [], _ => []
  | kv :: rest, k => if kv.1 = k then rest else kv :: delMeta rest k

/-- The version check of `_get_cached_driver`:
`if version and version != "latest": if driver_info.get("version") != version`
(a `None` or empty requested version, or `"latest"`, skips the check). -/
def versionMismatch (info : CachedDriverRecord) (version : Option String) : Bool :=
  match version with
  | none => false
  | some v => if v = "" ∨ v = "latest" then false else decide (info.version ≠ some v)

/-- The staleness check of `_get_cached_driver`: only a present, parseable
`last_updated` older than 7 days is stale; an absent field skips the check
and a parse failure is swallowed by `except Exception: pass`. -/
def isStale (info : CachedDriverRecord) (now : Int) : Bool :=
  match info.last_updated with
  | some (some t) => decide (now - t > sevenDays)
  | _ => false

/-- `DriverManager._get_cached_driver`; `fsExists` abstracts
`Path(...).exists()`. -/
def getCachedDriver (metadata : List (String × CachedDriverRecord)) (browser : BrowserType)
    (version : Option String) (now : Int) (fsExists : String → Bool) : Option String :=
  match lookupMeta metadata browser.value with
  | none => none
  | some info =>
    if versionMismatch info version then none
    else if isStale info now then none
    else if fsExists info.path then some info.path
    else none

/-- External collaborators of `get_driver_path`: the `which safaridriver`
lookup, and the `webdriver_manager` download modeled uniformly over the
three per-browser helpers as the installed path it returns. -/
structure DriverEnv where
  safariWhich : Option String
  downloadedPath : String

/-- Outcome of `get_driver_path`, keeping track of which branch produced
the path (cache hit, download collaborator, system driver, raised error). -/
inductive DriverPathResult where
  | cached (path : String)
  | downloaded (path : String)
  | system (path : String)
  | userError
  deriving DecidableEq, Repr

/-- `DriverManager._download_driver`: dispatch to the per-browser download
helper (the external collaborator), or `UserError` for browsers without
automatic download. -/
def downloadDriver (browser : BrowserType) (env : DriverEnv) : DriverPathResult :=
  match browser with
  | .chrome => .downloaded env.downloadedPath
  | .firefox => .downloaded env.downloadedPath
  | .edge => .downloaded env.downloadedPath
  | _ => .userError

/-- `DriverManager.get_driver_path`: Safari branch, then cache lookup with
the second `cached_path.exists()` check, then download. -/
def get_driver_path (metadata : List (String × CachedDriverRecord)) (browser : BrowserType)
    (version : Option String) (now : Int) (fsExists : String → Bool) (env : DriverEnv) :
    DriverPathResult :=
  if browser = .safari then
    match env.safariWhich with
    | some p => .system p
    | none => .userError
  else
    match getCachedDriver metadata browser version now fsExists with
    | some p => if fsExists p then .cached p else downloadDriver browser env
    | none => downloadDriver browser env

/-- `DriverManager._update_metadata`: record path, version and
`datetime.now().isoformat()` (which parses back to `now`). -/
def updateMetadata (metadata : List (String × CachedDriverRecord)) (browser : BrowserType)
    (driver_path : String) (version : String) (now : Int) :
    List (String × CachedDriverRecord) :=
  setMeta metadata browser.value
    { path := driver_path, version := some version, last_updated := some (some now) }

/-- `DriverManager.clear_cache`: drop one browser's entry (its binary file
deletion is best-effort and carries no metadata effect) or the whole
cache; returns the new metadata and the count of entries removed. -/
def clear_cache (metadata : List (String × CachedDriverRecord))
    (browser : Option BrowserType) : List (String × CachedDriverRecord) × Nat :=
  match browser with
  | some b =>
    if (lookupMeta metadata b.value).isSome then (delMeta metadata b.value, 1)
    else (metadata, 0)
  | none => ([], metadata.length)

end SeleniumForge

namespace SeleniumForge

/-! ### Dictionary lemmas -/

theorem lookupMeta_setMeta_self (m : List (String × CachedDriverRecord))
    (k : String) (v : CachedDriverRecord) :
    lookupMeta (setMeta m k v) k = some v := by
  induction m with
  | nil => simp [setMeta, lookupMeta]
  | cons kv rest ih =>
    by_cases h : kv.1 = k
    · simp [setMeta, h, lookupMeta]
    · simp [setMeta, h, lookupMeta, ih]

theorem lookupMeta_setMeta_other (m : List (String × CachedDriverRecord))
    (k k' : String) (v : CachedDriverRecord) (h : k' ≠ k) :
    lookupMeta (setMeta m k v) k' = lookupMeta m k' := by
  have hkk : ¬ k = k' := fun hc => h hc.symm
  induction m with
  | nil => simp [setMeta, lookupMeta, hkk]
  | cons kv rest ih =>
    by_cases hk : kv.1 = k
    · have hk' : ¬ kv.1 = k' := by
        rw [hk]
        exact hkk
      rw [setMeta, if_pos hk, lookupMeta, if_neg hkk, lookupMeta, if_neg hk']
    · rw [setMeta, if_neg hk]
      by_cases hk2 : kv.1 = k'
      · rw [lookupMeta, if_pos hk2, lookupMeta, if_pos hk2]
      · rw [lookupMeta, if_neg hk2, lookupMeta, if_neg hk2, ih]

theorem lookupMeta_eq_none (m : List (String × CachedDriverRecord)) (k : String)
    (h : k ∉ m.map Prod.fst) :
    lookupMeta m k = none := by
  induction m with
  | nil => rfl
  | cons kv rest ih =>
    simp only [List.map_cons, List.mem_cons] at h
    push_neg at h
    have h1 : ¬ kv.1 = k := fun hc => h.1 hc.symm
    rw [lookupMeta, if_neg h1]
    exact ih h.2

theorem lookupMeta_delMeta_self (m : List (String × CachedDriverRecord)) (k : String)
    (hnodup : (m.map Prod.fst).Nodup) :
    lookupMeta (delMeta m k) k = none := by
  induction m with
  | nil => rfl
  | cons kv rest ih =>
    simp only [List.map_cons, List.nodup_cons] at hnodup
    by_cases h : kv.1 = k
    · rw [delMeta, if_pos h]
      exact lookupMeta_eq_none rest k (h ▸ hnodup.1)
    · rw [delMeta, if_neg h, lookupMeta, if_neg h]
      exact ih hnodup.2

theorem lookupMeta_delMeta_other (m : List (String × CachedDriverRecord))
    (k k' : String) (h : k' ≠ k) :
    lookupMeta (delMeta m k) k' = lookupMeta m k' := by
  induction m with
  | nil => rfl
  | cons kv rest ih =>
    by_cases hk : kv.1 = k
    · have hk' : ¬ kv.1 = k' := by
        rw [hk]
        exact fun hc => h hc.symm
      rw [delMeta, if_pos hk, lookupMeta, if_neg hk']
    · rw [delMeta, if_neg hk]
      by_cases hk2 : kv.1 = k'
      · rw [lookupMeta, if_pos hk2, lookupMeta, if_pos hk2]
      · rw [lookupMeta, if_neg hk2, lookupMeta, if_neg hk2, ih]

/-! ### C8: selective clear -/

/-- C8: when an entry for browser `b` exists, `clear_cache(browser=b)`
removes exactly that entry (its key now misses, every other key's entry is
unchanged) and returns 1; a second `clear_cache(browser=b)` on the result
changes nothing and returns 0. -/
theorem clear_cache_selective (metadata : List (String × CachedDriverRecord))
    (b : BrowserType)
    (hnodup : (metadata.map Prod.fst).Nodup)
    (hin : (lookupMeta metadata b.value).isSome = true) :
    (clear_cache metadata (some b)).2 = 1 ∧
    lookupMeta (clear_cache metadata (some b)).1 b.value = none ∧
    (∀ k, k ≠ b.value →
      lookupMeta (clear_cache metadata (some b)).1 k = lookupMeta metadata k) ∧
    clear_cache (clear_cache metadata (some b)).1 (some b) =
      ((clear_cache metadata (some b)).1, 0) := by
  have hstep : clear_cache metadata (some b) = (delMeta metadata b.value, 1) := by
    simp [clear_cache, hin]
  rw [hstep]
  have hdel : lookupMeta (delMeta metadata b.value) b.value = none :=
    lookupMeta_delMeta_self metadata b.value hnodup
  refine ⟨rfl, hdel, ?_, ?_⟩
  · intro k hk
    exact lookupMeta_delMeta_other metadata b.value k hk
  · simp [clear_cache, hdel]

def sampleChromeRecord : CachedDriverRecord :=
  { path := "/cache/chromedriver", version := some "120.0.0",
    last_updated := some (some 1000) }

def sampleEdgeRecord : CachedDriverRecord :=
  { path := "/cache/edgedriver", version := some "119.0.1",
    last_updated := some (some 900) }

def sampleMetadata : List (String × CachedDriverRecord) :=
  [("chrome", sampleChromeRecord), ("edge", sampleEdgeRecord)]

theorem clear_cache_selective_witness :
    ((sampleMetadata.map Prod.fst).Nodup ∧
      (lookupMeta sampleMetadata BrowserType.chrome.value).isSome = true) ∧
    ((clear_cache sampleMetadata (some BrowserType.chrome)).2 = 1 ∧
      lookupMeta (clear_cache sampleMetadata (some BrowserType.chrome)).1
        BrowserType.chrome.value = none ∧
      (∀ k, k ≠ BrowserType.chrome.value →
        lookupMeta (clear_cache sampleMetadata (some BrowserType.chrome)).1 k =
          lookupMeta sampleMetadata k) ∧
      clear_cache (clear_cache sampleMetadata (some BrowserType.chrome)).1
          (some BrowserType.chrome) =
        ((clear_cache sampleMetadata (some BrowserType.chrome)).1, 0)) :=
  ⟨⟨by decide, by decide⟩,
    clear_cache_selective sampleMetadata BrowserType.chrome (by decide) (by decide)⟩

end SeleniumForge

namespace SeleniumForge

/-! ### C7: cache round-trip -/

theorem downloadable_ne_safari (b : BrowserType) (h : b.downloadable = true) :
    ¬ b = BrowserType.safari := by
  cases b <;> simp_all [BrowserType.downloadable]

theorem downloadDriver_eq (b : BrowserType) (env : DriverEnv) (h : b.downloadable = true) :
    downloadDriver b env = .downloaded env.downloadedPath := by
  cases b <;> simp_all [BrowserType.downloadable, downloadDriver]

/-- C7: after recording a cache entry for a downloadable browser with path
`p` (existing on disk), version `v` and time `now`, an immediate
`get_driver_path(browser, v)` returns `p` from the cache without invoking
the download collaborator; at any `later` time beyond the 7-day freshness
window, the same call invokes the download collaborator. -/
theorem cache_round_trip (metadata : List (String × CachedDriverRecord))
    (browser : BrowserType) (v p : String) (now later : Int)
    (fsExists : String → Bool) (env : DriverEnv)
    (hdl : browser.downloadable = true)
    (hfs : fsExists p = true)
    (hstale : later - now > sevenDays) :
    get_driver_path (updateMetadata metadata browser p v now) browser (some v) now
      fsExists env = .cached p ∧
    get_driver_path (updateMetadata metadata browser p v now) browser (some v) later
      fsExists env = .downloaded env.downloadedPath := by
  have hns := downloadable_ne_safari browser hdl
  have hlook : lookupMeta (updateMetadata metadata browser p v now) browser.value =
      some { path := p, version := some v, last_updated := some (some now) } :=
    lookupMeta_setMeta_self metadata browser.value _
  have hvm : versionMismatch
      { path := p, version := some v, last_updated := some (some now) } (some v) = false := by
    simp [versionMismatch]
  constructor
  · have hfresh : isStale
        { path := p, version := some v, last_updated := some (some now) } now = false := by
      simp only [isStale, decide_eq_false_iff_not, not_lt, sevenDays]
      omega
    have hcache : getCachedDriver (updateMetadata metadata browser p v now) browser
        (some v) now fsExists = some p := by
      simp only [getCachedDriver, hlook, hvm, hfresh, Bool.false_eq_true, if_false, hfs,
        if_true]
    simp only [get_driver_path, if_neg hns, hcache, hfs, if_true]
  · have hold : isStale
        { path := p, version := some v, last_updated := some (some now) } later = true := by
      simp only [isStale, decide_eq_true_eq]
      exact hstale
    have hcache : getCachedDriver (updateMetadata metadata browser p v now) browser
        (some v) later fsExists = none := by
      simp only [getCachedDriver, hlook, hvm, hold, Bool.false_eq_true, if_false, if_true]
    simp only [get_driver_path, if_neg hns, hcache]
    exact downloadDriver_eq browser env hdl

def alwaysExists : String → Bool := fun _ => true

def sampleEnv : DriverEnv :=
  { safariWhich := none, downloadedPath := "/download/chromedriver" }

theorem cache_round_trip_witness :
    (BrowserType.chrome.downloadable = true ∧
      alwaysExists "/cache/chromedriver" = true ∧
      ((1000 + 604801 : Int) - 1000 > sevenDays)) ∧
    (get_driver_path
        (updateMetadata [] BrowserType.chrome "/cache/chromedriver" "120.0.0" 1000)
        BrowserType.chrome (some "120.0.0") 1000 alwaysExists sampleEnv =
        .cached "/cache/chromedriver" ∧
      get_driver_path
        (updateMetadata [] BrowserType.chrome "/cache/chromedriver" "120.0.0" 1000)
        BrowserType.chrome (some "120.0.0") (1000 + 604801) alwaysExists sampleEnv =
        .downloaded sampleEnv.downloadedPath) :=
  ⟨⟨by decide, by decide, by decide⟩,
    cache_round_trip [] BrowserType.chrome "120.0.0" "/cache/chromedriver" 1000
      (1000 + 604801) alwaysExists sampleEnv (by decide) (by decide) (by decide)⟩

/-! ### C10: missing or unparseable timestamp means forever fresh -/

/-- C10: a cache record whose `last_updated` field is absent or does not
parse as an ISO timestamp skips the 7-day staleness check entirely: for
every `now`, as long as the version check passes and the recorded path
exists on disk, `_get_cached_driver` reports a hit. -/
theorem missing_timestamp_is_fresh (metadata : List (String × CachedDriverRecord))
    (browser : BrowserType) (version : Option String) (now : Int)
    (fsExists : String → Bool) (info : CachedDriverRecord)
    (hlook : lookupMeta metadata browser.value = some info)
    (hts : info.last_updated = none ∨ info.last_updated = some none)
    (hvm : versionMismatch info version = false)
    (hfs : fsExists info.path = true) :
    getCachedDriver metadata browser version now fsExists = some info.path := by
  have hstale : isStale info now = false := by
    unfold isStale
    rcases hts with h | h <;> simp [h]
  simp only [getCachedDriver, hlook, hvm, hstale, Bool.false_eq_true, if_false, hfs, if_true]

def unparsableRecord : CachedDriverRecord :=
  { path := "/cache/chromedriver", version := some "120.0.0", last_updated := some none }

theorem missing_timestamp_is_fresh_witness :
    (lookupMeta [("chrome", unparsableRecord)] BrowserType.chrome.value =
        some unparsableRecord ∧
      (unparsableRecord.last_updated = none ∨ unparsableRecord.last_updated = some none) ∧
      versionMismatch unparsableRecord (some "120.0.0") = false ∧
      alwaysExists unparsableRecord.path = true) ∧
    getCachedDriver [("chrome", unparsableRecord)] BrowserType.chrome (some "120.0.0")
      999999999999 alwaysExists = some unparsableRecord.path :=
  ⟨⟨by decide, by decide, by decide, by decide⟩,
    missing_timestamp_is_fresh [("chrome", unparsableRecord)] BrowserType.chrome
      (some "120.0.0") 999999999999 alwaysExists unparsableRecord
      (by decide) (by decide) (by decide) (by decide)⟩

end SeleniumForge
